import Mathlib

/-!
Verification development for the zumen-connect backend worker.

The Python source (app/services/ai_extractor.py, ocr_service.py,
job_processor.py, vectorizer.py) is embedded shallowly: pure functions
become Lean functions over `String` / `List Char`, the stateful pipeline
becomes explicit state passing, and fallible calls become `Except`.
Python strings are modelled through their character lists (`String.data`);
`None`-or-value cells become `Option`, and Python truthiness is made
explicit at each test site.
-/

namespace ZumenConnect

/-! ## Python string primitives -/

/-- Characters removed by Python's `str.strip()` / matched by regex `\s`,
restricted to the whitespace forms that occur in this domain (ASCII
whitespace, NBSP, and the ideographic space).  Python strips all Unicode
whitespace; the remaining Unicode space characters never appear in the
repository's inputs. -/
def pyIsSpace (c : Char) : Bool :=
  c = ' ' || c = '\t' || c = '\n' || c = '\r' ||
  c = '\x0b' || c = '\x0c' || c = '\xa0' || c = '　'

/-- Characters matched by Python's regex `\d` on `str` (Unicode decimal
digits), restricted to ASCII and fullwidth digits — the only decimal-digit
forms OCR of these drawings can produce. -/
def pyIsDigit (c : Char) : Bool :=
  c.isDigit || (0xFF10 ≤ c.toNat && c.toNat ≤ 0xFF19)

/-- `str.strip()` on a character list. -/
def stripChars (l : List Char) : List Char :=
  ((l.dropWhile pyIsSpace).reverse.dropWhile pyIsSpace).reverse

/-- `str.strip()`. -/
def pyStrip (s : String) : String := ⟨stripChars s.data⟩

/-- `str.splitlines()` on characters, for the line boundaries `\r\n`, `\r`,
`\n` (the forms produced by the OCR engine).  Like Python, a trailing
newline does not produce a trailing empty line. -/
def splitLinesChars : List Char → List Char → List (List Char)
  | [], acc => if acc.isEmpty then [] else [acc.reverse]
  | '\r' :: '\n' :: rest, acc => acc.reverse :: splitLinesChars rest []
  | '\r' :: rest, acc => acc.reverse :: splitLinesChars rest []
  | '\n' :: rest, acc => acc.reverse :: splitLinesChars rest []
  | c :: rest, acc => splitLinesChars rest (c :: acc)

/-- `[line.strip() for line in s.splitlines() if line.strip()]` — the
trimmed non-empty line list both extractor passes start from. -/
def pyLines (s : String) : List String :=
  ((splitLinesChars s.data []).map (fun l => stripChars l)).filterMap
    (fun l => if l.isEmpty then none else some ⟨l⟩)

/-- Does `pre` occur at the start of `l`? -/
def listStartsWith : List Char → List Char → Bool
  | [], _ => true
  | _ :: _, [] => false
  | p :: ps, c :: cs => p = c && listStartsWith ps cs

/-- Python's `needle in hay` substring test. -/
def containsSub (needle : List Char) : List Char → Bool
  | [] => listStartsWith needle []
  | c :: rest => listStartsWith needle (c :: rest) || containsSub needle rest

/-- `hay.split(needle)[0]`: the prefix before the first occurrence of
`needle`, when `needle` occurs. -/
def splitFirst (needle : List Char) : List Char → Option (List Char)
  | [] => if needle.isEmpty then some [] else none
  | c :: rest =>
    if listStartsWith needle (c :: rest) then some []
    else (splitFirst needle rest).map (fun pre => c :: pre)

/-- `sep.join(parts)`. -/
def joinSep (sep : String) : List String → String
  | [] => ""
  | [a] => a
  | a :: b :: rest => a ++ sep ++ joinSep sep (b :: rest)

/-- `value.lstrip("|")`. -/
def dropPipes (s : String) : String := ⟨s.data.dropWhile (· = '|')⟩

/-! ## Fixed-shape regex patterns (`\d{4}-\d{4}` and the date searches)

The three patterns used by the rule engine are sequences of exact digit
counts and literal characters; they are modelled by a token list with an
exact matcher, a prefix matcher (`re.match`) and a leftmost search
(`re.search`). -/

inductive RTok where
  | digits : Nat → RTok
  | lit : Char → RTok

/-- Consume exactly `n` decimal digits. -/
def takeDigits : Nat → List Char → Option (List Char × List Char)
  | 0, s => some ([], s)
  | n + 1, c :: s =>
    if pyIsDigit c then (takeDigits n s).map (fun p => (c :: p.1, p.2)) else none
  | _ + 1, [] => none

/-- Match the token list at the head of `s`; returns the consumed
characters (`group(0)`) and the rest. -/
def matchToksAt : List RTok → List Char → Option (List Char × List Char)
  | [], s => some ([], s)
  | .digits n :: ps, s =>
    match takeDigits n s with
    | some (d, r) => (matchToksAt ps r).map (fun p => (d ++ p.1, p.2))
    | none => none
  | .lit c :: ps, d :: s =>
    if d = c then (matchToksAt ps s).map (fun p => (c :: p.1, p.2)) else none
  | .lit _ :: _, [] => none

/-- `re.match(pattern, s)` (anchored at the start only). -/
def rmatch (p : List RTok) (s : List Char) : Bool := (matchToksAt p s).isSome

/-- `re.search(pattern, s).group(0)`: the leftmost match. -/
def rsearch (p : List RTok) : List Char → Option (List Char)
  | [] => (matchToksAt p []).map Prod.fst
  | c :: rest =>
    match matchToksAt p (c :: rest) with
    | some (m, _) => some m
    | none => rsearch p rest

/-- `_DRAWING_NO_PATTERN = re.compile(r"\d{4}-\d{4}")`. -/
def DRAWING_NO_PAT : List RTok := [.digits 4, .lit '-', .digits 4]

/-- `r"\d{4}-\d{2}-\d{2}"` (issue-date acceptance, dashed form). -/
def DATE_DASH_PAT : List RTok := [.digits 4, .lit '-', .digits 2, .lit '-', .digits 2]

/-- `r"\d{4}/\d{2}/\d{2}"` (issue-date acceptance, slashed form). -/
def DATE_SLASH_PAT : List RTok := [.digits 4, .lit '/', .digits 2, .lit '/', .digits 2]

/-- `_PAGE_SEP_PATTERN = re.compile(r"^\[ページ\s*\d+\]$")`. -/
def isPageSepToken (s : String) : Bool :=
  match s.data with
  | '[' :: 'ペ' :: 'ー' :: 'ジ' :: rest =>
    let afterSpace := rest.dropWhile pyIsSpace
    let ds := afterSpace.takeWhile pyIsDigit
    let rest2 := afterSpace.dropWhile pyIsDigit
    !ds.isEmpty && rest2 = [']']
  | _ => false

/-! ## The rule engine (`_extract_by_rules`) -/

/-- The fixed extraction record (`ExtractedFields` of the spec): the dict
literal built at the top of `_extract_by_rules`. -/
structure ExtractedFields where
  title : Option String := none
  drawing_no : Option String := none
  part_name : Option String := none
  material : Option String := none
  surface_treatment : Option String := none
  process_note : Option String := none
  issue_date : Option String := none
  tags : List String := []
deriving DecidableEq, Repr

/-- The output keys of `_LABEL_TO_KEY`. -/
inductive FieldKey where
  | title | drawing_no | part_name | material
  | surface_treatment | process_note | issue_date
deriving DecidableEq, Repr

def setField (r : ExtractedFields) : FieldKey → String → ExtractedFields
  | .title, v => { r with title := some v }
  | .drawing_no, v => { r with drawing_no := some v }
  | .part_name, v => { r with part_name := some v }
  | .material, v => { r with material := some v }
  | .surface_treatment, v => { r with surface_treatment := some v }
  | .process_note, v => { r with process_note := some v }
  | .issue_date, v => { r with issue_date := some v }

/-- `_KNOWN_LABELS`. -/
def KNOWN_LABELS : List String :=
  ["名称", "品名", "材質", "表面処理", "図番", "熱処理", "処理指示",
   "用紙", "尺度", "作成者", "確認者", "承認者", "部品図", "組立図"]

/-- `_EXTRACTION_LABELS`. -/
def EXTRACTION_LABELS : List String :=
  ["名称", "品名", "材質", "表面処理", "図番", "熱処理", "処理指示", "出図日"]

/-- `_LABEL_TO_KEY`. -/
def LABEL_TO_KEY : List (String × FieldKey) :=
  [("名称", .part_name), ("品名", .part_name), ("材質", .material),
   ("表面処理", .surface_treatment), ("図番", .drawing_no),
   ("熱処理", .process_note), ("処理指示", .process_note),
   ("出図日", .issue_date), ("部品図", .title), ("組立図", .title)]

/-- `_SURFACE_OR_MATERIAL_TERMS`. -/
def SURFACE_OR_MATERIAL_TERMS : List String :=
  ["酸洗い", "電着塗装", "黒染め", "バフ研磨", "無処理", "めっき",
   "研磨", "塗装", "クロメート", "アルマイト", "リン酸塩処理"]

/-- `_NON_DRAWING_NO_TERMS`. -/
def NON_DRAWING_NO_TERMS : List String := ["IC", "IA", "IB", "A", "B", "A3", "A4", "1/1"]

def isKnownLabel (s : String) : Bool := KNOWN_LABELS.contains s

def lookupLabelKey (s : String) : Option FieldKey :=
  (LABEL_TO_KEY.find? (fun p => p.1 = s)).map Prod.snd

/-- The `while j < len(lines)` scan: first non-label line of the list,
stripped (the list is scanned from a given start by dropping a prefix). -/
def firstNonLabel : List String → Option String
  | [] => none
  | l :: t => if isKnownLabel l then firstNonLabel t else some (pyStrip l)

/-- The final assignment of one loop iteration of `_extract_by_rules`: a
surviving value is stored under its key, except that an `issue_date`
candidate must contain a dashed or slashed date. -/
def assignValue (r : ExtractedFields) (key : FieldKey) : Option String → ExtractedFields
  | none => r
  | some v =>
    if key = .issue_date then
      if (rsearch DATE_DASH_PAT v.data).isSome || (rsearch DATE_SLASH_PAT v.data).isSome then
        setField r key v
      else r
    else setField r key v

/-- The candidate-selection and normalization chain of one loop iteration
of `_extract_by_rules` (everything between the label lookup and the final
assignment).  The lines are stripped and non-empty, so the candidate
values are never the empty string; Python's falsy `""`/`None` candidates
are both represented by `none`. -/
def ruleCandidate (lines : List String) (r : ExtractedFields) (i : Nat)
    (key : FieldKey) : Option String :=
  let value_next : Option String :=
    match lines.get? (i + 1) with
    | some nxt => if isKnownLabel nxt then none else some (pyStrip nxt)
    | none => none
  let value_prev : Option String :=
    if i ≥ 1 then
      match lines.get? (i - 1) with
      | some prv => if isKnownLabel prv then none else some (pyStrip prv)
      | none => none
    else none
  let value_first_non_label : Option String := firstNonLabel (lines.drop (i + 1))
  let value0 : Option String :=
    if key = .part_name ∨ key = .title then
      match value_next with
      | some vn =>
        if SURFACE_OR_MATERIAL_TERMS.contains vn then value_prev.orElse (fun _ => some vn)
        else some vn
      | none => value_prev
    else
      (value_next.orElse (fun _ => value_first_non_label)).orElse (fun _ => value_prev)
  -- `value = value.lstrip("|").strip()`; a page-marker token is dropped,
  -- and a value emptied by the stripping is falsy from here on (none).
  let value1 : Option String :=
    match value0 with
    | none => none
    | some v =>
      let v2 := pyStrip (dropPipes v)
      if v2 = "" then none
      else if isPageSepToken v2 then none
      else some v2
  let value2 : Option String :=
    match value1 with
    | none => none
    | some v =>
      if key = .part_name ∨ key = .title then
        if SURFACE_OR_MATERIAL_TERMS.contains v then none
        else if rmatch DRAWING_NO_PAT v.data then none
        else some v
      else some v
  let value3 : Option String :=
    match value2 with
    | none => none
    | some v =>
      if key = .drawing_no ∧ NON_DRAWING_NO_TERMS.contains v then none else some v
  match value3 with
  | none => none
  | some v =>
    if key = .process_note ∧ r.material = some v then none else some v

/-- One iteration of the `for i, line in enumerate(lines)` loop of
`_extract_by_rules`. -/
def ruleStep (lines : List String) (r : ExtractedFields) (i : Nat) : ExtractedFields :=
  match lines.get? i with
  | none => r
  | some line =>
    if ¬ isKnownLabel line then r
    else
      match lookupLabelKey line with
      | none => r
      | some key => assignValue r key (ruleCandidate lines r i key)

/-- The full line scan of `_extract_by_rules` (everything before the
regex-based drawing-number pass). -/
def lineScanResult (lines : List String) : ExtractedFields :=
  (List.range lines.length).foldl (ruleStep lines) {}

/-- The trailing regex pass of `_extract_by_rules`: search the whole text
for `\d{4}-\d{4}`; overwrite `drawing_no` unless the line-scan value is
itself in that format. -/
def applyDrawingNoRegex (ocr_text : String) (r : ExtractedFields) : ExtractedFields :=
  match rsearch DRAWING_NO_PAT ocr_text.data with
  | none => r
  | some m =>
    let keep : Bool :=
      match r.drawing_no with
      | some cur => cur ≠ "" && rmatch DRAWING_NO_PAT cur.data
      | none => false
    if keep then r else { r with drawing_no := some ⟨m⟩ }

/-- `_extract_by_rules`. -/
def extractByRules (ocr_text : String) : ExtractedFields :=
  if pyStrip ocr_text = "" then {}
  else
    let lines := pyLines ocr_text
    if lines.isEmpty then {}
    else applyDrawingNoRegex ocr_text (lineScanResult lines)

/-! ## First-page restriction (`_first_page_ocr_text`) -/

/-- The four page separators tried, in source order. -/
def PAGE_SEPS : List String := ["[ページ 2]", "[ページ 3]", "[ページ 4]", "[ページ 5]"]

/-- The `for sep in (...)` loop body: split at the first separator (in list
order) contained in the text. -/
def firstPageAux : List String → String → String
  | [], s => s
  | sep :: rest, s =>
    match splitFirst sep.data s.data with
    | some pre => ⟨stripChars pre⟩
    | none => firstPageAux rest s

/-- `_first_page_ocr_text`. -/
def firstPageOcrText (s : String) : String :=
  if s = "" then s else firstPageAux PAGE_SEPS s

/-- Modelled from the spec (claim C10 reading): the marker that decides the
split is the *earliest-positioned* occurrence in the text among the four
literals, and the returned prefix is everything strictly before it,
whitespace-stripped; with no marker the text is unchanged.  This is the
second definition of a refinement pair, to be compared against
`firstPageOcrText` (the source's behaviour). -/
def firstPageBySpecPosition (s : String) : String :=
  firstPageSpecAux s.data []
where
  firstPageSpecAux : List Char → List Char → String
    | [], _ => s
    | c :: rest, acc =>
      if PAGE_SEPS.any (fun sep => listStartsWith sep.data (c :: rest)) then
        ⟨stripChars acc.reverse⟩
      else firstPageSpecAux rest (c :: acc)

/-- The separator `firstPageOcrText` splits at: the first element of
`PAGE_SEPS`, in list order, occurring anywhere in the text. -/
def chosenPageSep (s : String) : Option String :=
  PAGE_SEPS.find? (fun sep => containsSub sep.data s.data)

/-! ## The AI-fallback preprocessor (`_preprocess_ocr_for_extraction`) -/

/-- `_preprocess_ocr_for_extraction`: pair each known label with the
nearest following non-label line, keep the extraction-relevant labels,
and render as `label: value` lines; fall back to the input unmodified. -/
def preprocessOcrForExtraction (ocr_text : String) : String :=
  if pyStrip ocr_text = "" then ocr_text
  else
    let lines := pyLines ocr_text
    if lines.isEmpty then ocr_text
    else
      let pairs : List (String × String) :=
        (List.range lines.length).foldl
          (fun acc i =>
            match lines.get? i with
            | none => acc
            | some line =>
              if isKnownLabel line then
                match firstNonLabel (lines.drop (i + 1)) with
                | some v => acc ++ [(line, v)]
                | none => acc
              else acc)
          []
      if pairs.isEmpty then ocr_text
      else
        let filtered := pairs.filter (fun p => EXTRACTION_LABELS.contains p.1)
        if filtered.isEmpty then ocr_text
        else joinSep "\n" (filtered.map (fun p => p.1 ++ ": " ++ p.2))

/-! ## JSON values and Python dicts

Gemini results and the drawing's `extracted_json` document are arbitrary
JSON; Python dicts are modelled as insertion-ordered association lists
whose lookup takes the first hit (keys are unique in every dict the source
builds). -/

inductive JVal where
  | jnull : JVal
  | jbool : Bool → JVal
  | jnum : Int → JVal
  | jstr : String → JVal
  | jarr : List JVal → JVal
  | jobj : List (String × JVal) → JVal
deriving Repr

abbrev AiDict := List (String × JVal)

def dictGet : AiDict → String → Option JVal
  | [], _ => none
  | (k', v) :: t, k => if k' = k then some v else dictGet t k

/-- `d.get(k)` — Python returns `None` for a missing key. -/
def pyGet (d : AiDict) (k : String) : JVal := (dictGet d k).getD .jnull

/-- `d[k] = v`. -/
def dictSet : AiDict → String → JVal → AiDict
  | [], k, v => [(k, v)]
  | (k', v') :: t, k, v =>
    if k' = k then (k', v) :: t else (k', v') :: dictSet t k v

def isJNull : JVal → Bool
  | .jnull => true
  | _ => false

/-- Python's `v == ""`: only the empty string compares equal to `""`. -/
def isEmptyStr : JVal → Bool
  | .jstr s => s = ""
  | _ => false

def isJArr : JVal → Bool
  | .jarr _ => true
  | _ => false

/-- Python truthiness of a JSON value. -/
def jtruthy : JVal → Bool
  | .jnull => false
  | .jbool b => b
  | .jnum n => n ≠ 0
  | .jstr s => s ≠ ""
  | .jarr l => !l.isEmpty
  | .jobj l => !l.isEmpty

/-- `_has_any_extracted_value`. -/
def hasAnyExtractedValue (d : AiDict) : Bool :=
  d.any (fun kv =>
    if kv.1 = "tags" then jtruthy kv.2 && isJArr kv.2
    else !isJNull kv.2 && !isEmptyStr kv.2)

/-- The rule-engine result as the Python dict it is (insertion order of the
literal in `_extract_by_rules`). -/
def fieldsToDict (r : ExtractedFields) : AiDict :=
  let c : Option String → JVal := fun v => (v.map .jstr).getD .jnull
  [("title", c r.title), ("drawing_no", c r.drawing_no),
   ("part_name", c r.part_name), ("material", c r.material),
   ("surface_treatment", c r.surface_treatment), ("process_note", c r.process_note),
   ("issue_date", c r.issue_date), ("tags", .jarr (r.tags.map .jstr))]

/-! ## `datetime.strptime(s, "%Y-%m-%d")`

CPython compiles the format to the regex
`(?P<Y>\d\d\d\d)\-(?P<m>1[0-2]|0[1-9]|[1-9])\-(?P<d>3[01]|[12]\d|0[1-9]|[1-9])`,
requires the match to consume the whole string ("unconverted data
remains" otherwise), then builds a `date`, which rejects a day that does
not exist in the month and a year below 1.  The alternation (with
backtracking, left alternative preferred) is modelled by a star-free
regex whose run enumerates the match candidates in preference order. -/

inductive RePat where
  | eps : RePat
  | cls : (Char → Bool) → RePat
  | seq : RePat → RePat → RePat
  | alt : RePat → RePat → RePat

/-- All (consumed, rest) splittings, in the engine's preference order. -/
def reRunAll : RePat → List Char → List (List Char × List Char)
  | .eps, s => [([], s)]
  | .cls p, c :: rest => if p c then [([c], rest)] else []
  | .cls _, [] => []
  | .seq a b, s =>
    (reRunAll a s).flatMap (fun pa =>
      (reRunAll b pa.2).map (fun pb => (pa.1 ++ pb.1, pb.2)))
  | .alt a b, s => reRunAll a s ++ reRunAll b s

def chRange (lo hi : Char) : RePat := .cls (fun c => lo.toNat ≤ c.toNat && c.toNat ≤ hi.toNat)

def chLit (x : Char) : RePat := .cls (fun c => c = x)

def reSeqs : List RePat → RePat
  | [] => .eps
  | [p] => p
  | p :: q :: rest => .seq p (reSeqs (q :: rest))

/-- `1[0-2]|0[1-9]|[1-9]` (the `%m` group; character ranges are ASCII). -/
def strptimeMonthPat : RePat :=
  .alt (.seq (chLit '1') (chRange '0' '2'))
    (.alt (.seq (chLit '0') (chRange '1' '9')) (chRange '1' '9'))

/-- `3[01]|[12]\d|0[1-9]|[1-9]` (the `%d` group; `\d` is Unicode-aware). -/
def strptimeDayPat : RePat :=
  .alt (.seq (chLit '3') (chRange '0' '1'))
    (.alt (.seq (.cls (fun c => c = '1' || c = '2')) (.cls pyIsDigit))
      (.alt (.seq (chLit '0') (chRange '1' '9')) (chRange '1' '9')))

/-- The whole `%Y-%m-%d` regex. -/
def strptimeYmdPat : RePat :=
  reSeqs [.cls pyIsDigit, .cls pyIsDigit, .cls pyIsDigit, .cls pyIsDigit,
    chLit '-', strptimeMonthPat, chLit '-', strptimeDayPat]

/-- Decimal value of a digit character (ASCII or fullwidth). -/
def digitVal (c : Char) : Nat :=
  if c.isDigit then c.toNat - 48 else c.toNat - 0xFF10

def digitsToNat (l : List Char) : Nat := l.foldl (fun acc c => acc * 10 + digitVal c) 0

/-- Split a character list at `-` (the matched `%Y-%m-%d` group borders). -/
def splitOnDash : List Char → List (List Char)
  | [] => [[]]
  | '-' :: rest => [] :: splitOnDash rest
  | c :: rest =>
    match splitOnDash rest with
    | [] => [[c]]
    | h :: t => (c :: h) :: t

def isLeapYear (y : Nat) : Bool := y % 4 = 0 && (y % 100 ≠ 0 || y % 400 = 0)

def daysInMonth (y m : Nat) : Nat :=
  if m = 2 then (if isLeapYear y then 29 else 28)
  else if m = 4 ∨ m = 6 ∨ m = 9 ∨ m = 11 then 30
  else 31

/-- Does `datetime.strptime(s, "%Y-%m-%d")` succeed? -/
def strptimeYmdOk (s : String) : Bool :=
  match (reRunAll strptimeYmdPat s.data).head? with
  | none => false
  | some (consumed, rest) =>
    rest.isEmpty &&
      (match splitOnDash consumed with
       | [ys, ms, ds] =>
         let y := digitsToNat ys
         let m := digitsToNat ms
         let d := digitsToNat ds
         1 ≤ y && d ≤ daysInMonth y m
       | _ => false)

/-- Modelled from the spec (claim C5 reading): a string "matches the
`YYYY-MM-DD` format" when it is exactly four digits, a hyphen, two digits,
a hyphen, and two digits.  Second definition of a refinement pair, to be
compared with `strptimeYmdOk` (what the source actually checks). -/
def specMatchesIsoFormat (s : String) : Bool :=
  match matchToksAt DATE_DASH_PAT s.data with
  | some (_, rest) => rest.isEmpty
  | none => false

/-! ## The extraction cascade (`process_ai_extraction_for_drawing`)

The two Gemini calls and the page-image download are external
collaborators; they enter the model as oracle functions/values in
`AiEnv`.  The cascade's decisions (which oracle to invoke, when to stop)
are taken from the source. -/

/-- The `issue_date` validation step shared by both cascade branches:
`datetime.strptime(v, "%Y-%m-%d")`, nulling the field on `ValueError` or
`TypeError` (a non-string raises `TypeError`). -/
def validateIssueDate (d : AiDict) : AiDict :=
  let v := pyGet d "issue_date"
  if jtruthy v then
    match v with
    | .jstr s => if strptimeYmdOk s then d else dictSet d "issue_date" .jnull
    | _ => dictSet d "issue_date" .jnull
  else d

/-- The first `page_image` row fetched for the multimodal attempt
(`gcs_path` and `mime` are nullable columns). -/
structure PageImageRow where
  gcs_path : Option String
  mime : Option String

/-- External collaborators of the cascade: the limit-1 `page_image` query
result, the blob download (`none` models a failed/empty download — the
helper returns `None` on any error), and the two Gemini extractions as
result oracles keyed by the text they are sent. -/
structure AiEnv where
  firstPageImage : Option PageImageRow
  downloadedBytes : Option (List Nat)
  multimodalResult : String → AiDict
  textOnlyResult : String → AiDict

/-- What the cascade did: its returned dict and which generative calls
were made. -/
structure CascadeOutcome where
  result : AiDict
  multimodalCalled : Bool
  textOnlyCalled : Bool

/-- `process_ai_extraction_for_drawing`, from the point where the OCR text
has been read out of `extracted_json` (the preceding Supabase reads only
fetch that text). -/
def runExtractionCascade (env : AiEnv) (ocr_text : String) : CascadeOutcome :=
  if ocr_text = "" then ⟨[], false, false⟩
  else
    let ocr_first := firstPageOcrText ocr_text
    let rule_result := fieldsToDict (extractByRules ocr_first)
    if hasAnyExtractedValue rule_result then
      ⟨validateIssueDate rule_result, false, false⟩
    else
      let preprocessed := preprocessOcrForExtraction ocr_first
      let ocr_text_for_ai :=
        if preprocessed ≠ "" ∧ preprocessed ≠ ocr_first then preprocessed else ocr_first
      let multimodalCalled : Bool :=
        match env.firstPageImage with
        | some row =>
          match row.gcs_path with
          | some p =>
            p ≠ "" &&
              (match env.downloadedBytes with
               | some b => !b.isEmpty
               | none => false)
          | none => false
        | none => false
      let mmResult : AiDict :=
        if multimodalCalled then env.multimodalResult ocr_text_for_ai else []
      let textOnlyCalled : Bool := mmResult.isEmpty || !hasAnyExtractedValue mmResult
      let aiResult : AiDict :=
        if textOnlyCalled then env.textOnlyResult ocr_text_for_ai else mmResult
      if aiResult.isEmpty || !hasAnyExtractedValue aiResult then
        ⟨[], multimodalCalled, textOnlyCalled⟩
      else
        ⟨validateIssueDate aiResult, multimodalCalled, textOnlyCalled⟩

/-! ## Persisting an extraction (`_normalize_ai_result`, `save_extracted_fields_to_drawing`) -/

/-- `_AI_KEY_TO_COLUMN` (insertion order of the dict literal). -/
def AI_KEY_TO_COLUMN : List (String × String) :=
  [("品名", "part_name"), ("材質", "material"), ("図番", "drawing_no"),
   ("表面処理", "surface_treatment"), ("処理指示", "process_note"),
   ("熱処理", "process_note"), ("出図日", "issue_date"),
   ("タイトル", "title"), ("タグ", "tags")]

/-- The `column_keys` tuple of `_normalize_ai_result`. -/
def COLUMN_KEYS : List String :=
  ["title", "drawing_no", "part_name", "material", "surface_treatment",
   "process_note", "issue_date", "tags"]

/-- The alias fallback loop of `_normalize_ai_result`: the first localized
key mapping to `en_key` whose value is neither `None` nor `""`. -/
def findAliasValue (ai : AiDict) (en_key : String) : Option JVal :=
  go AI_KEY_TO_COLUMN
where
  go : List (String × String) → Option JVal
    | [] => none
    | (ja, mapped) :: t =>
      if mapped = en_key then
        let v := pyGet ai ja
        if !isJNull v && !isEmptyStr v then some v else go t
      else go t

/-- `_normalize_ai_result`. -/
def normalizeAiResult (ai : AiDict) : AiDict :=
  COLUMN_KEYS.foldl
    (fun acc en_key =>
      let val0 := pyGet ai en_key
      let val1 :=
        if isJNull val0 || isEmptyStr val0 then (findAliasValue ai en_key).getD val0
        else val0
      if !isJNull val1 && !isEmptyStr val1 && (en_key ≠ "tags" || isJArr val1) then
        acc ++ [(en_key, val1)]
      else acc)
    []

/-- The seven scalar-column truthiness gates of
`save_extracted_fields_to_drawing`, in source order. -/
def SCALAR_COLUMNS : List String :=
  ["title", "drawing_no", "part_name", "material", "surface_treatment",
   "process_note", "issue_date"]

/-- The seven `if normalized.get(col):` gates of
`save_extracted_fields_to_drawing`, folded in source order over the
normalized record `n`. -/
def scalarUpdateFields (n : AiDict) : AiDict :=
  SCALAR_COLUMNS.foldl
    (fun acc k => if jtruthy (pyGet n k) then acc ++ [(k, pyGet n k)] else acc) []

/-- The `if normalized.get("tags") and isinstance(..., list):` gate. -/
def tagsUpdateFields (n : AiDict) : AiDict :=
  if jtruthy (pyGet n "tags") && isJArr (pyGet n "tags") then
    [("tags", pyGet n "tags")]
  else []

/-- The `update_fields` payload built by `save_extracted_fields_to_drawing`
for the eight drawing columns.  (The payload additionally always carries
the merged `extracted_json` document, which is not a column field; the
document write is modelled in the pipeline below.) -/
def updateFieldsFor (ai : AiDict) : AiDict :=
  scalarUpdateFields (normalizeAiResult ai) ++ tagsUpdateFields (normalizeAiResult ai)

/-- Applying an update payload to a drawing row (`update(...)`): each
payload key overwrites that column, every other column keeps its value. -/
def applyUpdate (row : AiDict) (upd : AiDict) : AiDict :=
  upd.foldl (fun r kv => dictSet r kv.1 kv.2) row

/-! ## Per-page OCR (`process_ocr_for_drawing`) -/

/-- One page-image row together with its external outcomes: `ocr` is the
download + `extract_text_with_coordinates` step (`.error` models an
exception in the outer per-page `try`, `.ok text` its extracted text), and
`dbFails` whether the token/dimension persistence `try` raises. -/
structure PageSpec where
  page_no : Nat
  ocr : Except String String
  dbFails : Bool
deriving Repr

/-- A record of the page's database writes (dimensions + token replace),
or of their failure. -/
inductive DbEvent where
  | wrotePage : Nat → DbEvent
  | dbFailed : Nat → DbEvent
deriving DecidableEq, Repr

/-- `f"[ページ {page_no}]\n{text}"` as appended to `all_texts`. -/
def pageHeader (n : Nat) (text : String) : String :=
  "[ページ " ++ toString n ++ "]" ++ "\n" ++ text

/-- The `for page_file in page_images.data` loop: `pages` and `all_texts`
are appended to before the DB `try` block, so `dbFails` influences only
the event log. -/
def ocrLoop : List PageSpec → List (Nat × String) × List String × List DbEvent
  | [] => ([], [], [])
  | p :: rest =>
    match p.ocr with
    | .ok text =>
      ((p.page_no, text) :: (ocrLoop rest).1,
        (if text = "" then (ocrLoop rest).2.1
         else pageHeader p.page_no text :: (ocrLoop rest).2.1),
        (if p.dbFails then DbEvent.dbFailed p.page_no :: (ocrLoop rest).2.2
         else DbEvent.wrotePage p.page_no :: (ocrLoop rest).2.2))
    | .error _ => ((p.page_no, "") :: (ocrLoop rest).1, (ocrLoop rest).2.1, (ocrLoop rest).2.2)

/-- The value returned by `process_ocr_for_drawing`. -/
structure OcrOutput where
  ocr_text : String
  pages : List (Nat × String)
deriving DecidableEq, Repr

/-- `process_ocr_for_drawing` over the listed page images. -/
def processOcrForDrawing (ps : List PageSpec) : OcrOutput :=
  if ps.isEmpty then ⟨"", []⟩
  else ⟨joinSep ("\n" ++ "\n") (ocrLoop ps).2.1, (ocrLoop ps).1⟩

/-! ## Vectorization (`vectorizer.py`) -/

/-- The fields of a JSON object, and `[]` for anything else (the source
guards every such read with `... or {}` / an `isinstance(..., dict)`
check; a truthy non-dict would raise in the source but is never written
by this pipeline). -/
def jobjFields : JVal → List (String × JVal)
  | .jobj l => l
  | _ => []

/-- `str(t)` for the tag values joined into the search text (container
reprs are not modelled; the pipeline only writes string tags). -/
def jvalAsStr : JVal → String
  | .jstr s => s
  | .jnum n => toString n
  | .jbool true => "True"
  | .jbool false => "False"
  | .jnull => "None"
  | .jarr _ => ""
  | .jobj _ => ""

/-- The six scalar `ai` fields folded into the search text. -/
def SEARCH_TEXT_KEYS : List String :=
  ["title", "drawing_no", "part_name", "material", "surface_treatment", "process_note"]

/-- A string value when truthy and a string, as `if val and isinstance(val, str)`. -/
def truthyStr : JVal → Option String
  | .jstr s => if s = "" then none else some s
  | _ => none

/-- `_build_search_text`. -/
def buildSearchText (extracted_json : AiDict) : String :=
  let ocr := jobjFields (pyGet extracted_json "ocr")
  let ocr_text : String :=
    match pyGet ocr "ocr_text" with
    | .jstr s => s
    | _ => ""
  let ai := jobjFields (pyGet extracted_json "ai")
  let parts : List String :=
    (if ocr_text ≠ "" then [ocr_text] else []) ++
    (SEARCH_TEXT_KEYS.filterMap (fun k => truthyStr (pyGet ai k))) ++
    (match pyGet ai "tags" with
     | .jarr l => if l.isEmpty then [] else [joinSep " " (l.map jvalAsStr)]
     | _ => [])
  let text := pyStrip (joinSep "\n" parts)
  ⟨text.data.take 8000⟩

/-- External collaborators of the vectorize stage: whether `PINECONE_*`
and the Gemini key are configured, the embedding call's outcome (`none`
models an API failure or a non-list response — both are turned into
`None` by `_get_embedding`), and the Pinecone upsert outcome. -/
structure VecEnv where
  pineconeConfigured : Bool
  geminiKeySet : Bool
  embedResult : Option (List Int)
  upsert : Except String Unit

/-- `_get_embedding`. -/
def getEmbedding (env : VecEnv) (text : String) : Option (List Int) :=
  if pyStrip text = "" then none
  else if ¬ env.geminiKeySet then none
  else env.embedResult

/-- The single upsert sent to the vector index. -/
structure UpsertCall where
  id : String
  values : List Int
  company_id : String
  drawing_id : String
deriving DecidableEq, Repr

/-- `vectorize_and_upsert`: skips quietly when unconfigured, the search
text is empty, or the embedding failed; an upsert failure is logged and
re-raised. -/
def vectorizeAndUpsert (env : VecEnv) (drawing_id company_id : String)
    (extracted_json : AiDict) : Except String (Option UpsertCall) :=
  if ¬ env.pineconeConfigured then .ok none
  else
    let search_text := buildSearchText extracted_json
    if search_text = "" then .ok none
    else
      match getEmbedding env search_text with
      | none => .ok none
      | some vec =>
        match env.upsert with
        | .ok _ => .ok (some ⟨drawing_id, vec, company_id, drawing_id⟩)
        | .error e => .error e

/-- `vectorize_drawing_for_search`: fetches the row (modelled as the
`company_id`/`extracted_json` pair, `none` when the drawing is missing)
and delegates. -/
def vectorizeDrawingForSearch (env : VecEnv) (drawing_id : String)
    (row : Option (Option String × JVal)) : Except String (Option UpsertCall) :=
  if ¬ env.pineconeConfigured then .ok none
  else
    match row with
    | none => .ok none
    | some (company_id, ejson) =>
      let ej := jobjFields ejson
      match company_id with
      | none => .ok none
      | some cid => if cid = "" then .ok none else vectorizeAndUpsert env drawing_id cid ej

/-! ## The pipeline stage runner and orchestrator (`job_processor.py`) -/

/-- A `drawing_files` row (only its presence matters to the stage gates). -/
structure FileRow where
  gcs_path : Option String
deriving Repr

/-- The drawing row at job start. -/
structure DrawingState where
  status : String
  extracted_json : JVal
  company_id : Option String

/-- One drawing job's world: the file-index query results, the outcome of
each external stage call, and the vectorizer's collaborators.  (The
Supabase configuration gate at the top of `process_drawing_job` is assumed
satisfied; the `aiOutcome` field abstracts
`process_ai_extraction_for_drawing`, modelled in detail by
`runExtractionCascade`.) -/
structure JobEnv where
  drawing_id : String
  drawing : DrawingState
  pdfFiles : List FileRow
  pageImages : List FileRow
  pdfOutcome : Except String Unit
  ocrOutcome : Except String OcrOutput
  aiOutcome : Except String AiDict
  vecEnv : VecEnv

/-- The `ocr` sub-document written into `extracted_json`. -/
def encodeOcrOutput (r : OcrOutput) : JVal :=
  .jobj [("ocr_text", .jstr r.ocr_text),
    ("pages", .jarr (r.pages.map
      (fun p => .jobj [("page_no", .jnum p.1), ("text", .jstr p.2)])))]

/-- The drawing's `extracted_json` after the OCR stage: merged under the
`ocr` key when OCR produced text or pages; unchanged when it produced
nothing or raised (the stage catches its own failure). -/
def docAfterOcr (env : JobEnv) : JVal :=
  match env.ocrOutcome with
  | .error _ => env.drawing.extracted_json
  | .ok r =>
    if r.ocr_text ≠ "" ∨ ¬ r.pages.isEmpty then
      .jobj (dictSet (jobjFields env.drawing.extracted_json) "ocr" (encodeOcrOutput r))
    else env.drawing.extracted_json

/-- The document after the extract stage: `save_extracted_fields_to_drawing`
re-reads the document and stores the raw result under `ai` when the
cascade returned a truthy dict; unchanged when it returned `{}` or raised.
(The simultaneous column-field update is modelled by `updateFieldsFor`.) -/
def docAfterAi (env : JobEnv) : JVal :=
  match env.aiOutcome with
  | .error _ => docAfterOcr env
  | .ok d =>
    if d.isEmpty then docAfterOcr env
    else .jobj (dictSet (jobjFields (docAfterOcr env)) "ai" (.jobj d))

/-- The vectorize stage as invoked by the pipeline: it re-reads the row
the earlier stages wrote. -/
def vectorizeStage (env : JobEnv) : Except String (Option UpsertCall) :=
  vectorizeDrawingForSearch env.vecEnv env.drawing_id
    (some (env.drawing.company_id, docAfterAi env))

/-- The observable outcome of one `process_drawing_job` run. -/
structure PipelineTrace where
  drawingStatus : String
  doc : JVal
  ocrRan : Bool
  extractRan : Bool
  vectorizeRan : Bool
  vecError : Option String
  upsertCall : Option UpsertCall

/-- The trace when the raster gate passes: stages (b)–(e) all run, each
swallowing its own failure. -/
def stagesTrace (env : JobEnv) : PipelineTrace :=
  { drawingStatus := "processing"
    doc := docAfterAi env
    ocrRan := true
    extractRan := true
    vectorizeRan := true
    vecError := match vectorizeStage env with | .error e => some e | .ok _ => none
    upsertCall := match vectorizeStage env with | .ok c => c | .error _ => none }

/-- `process_drawing_job`: sets the drawing to `processing`, then either
processes the PDF (whose failure aborts the pipeline), proceeds directly
when page images already exist, or returns at once when neither exists. -/
def processDrawingJob (env : JobEnv) : Except String PipelineTrace :=
  if ¬ env.pdfFiles.isEmpty then
    match env.pdfOutcome with
    | .error e => .error e
    | .ok _ => .ok (stagesTrace env)
  else if ¬ env.pageImages.isEmpty then .ok (stagesTrace env)
  else
    .ok { drawingStatus := "processing"
          doc := env.drawing.extracted_json
          ocrRan := false
          extractRan := false
          vectorizeRan := false
          vecError := none
          upsertCall := none }

/-- The final state of the claimed job's row after `_run_one_cycle`. -/
structure JobRecord where
  status : String
  step : Option String
  error_message : Option String
  startedSet : Bool
  finishedSet : Bool
deriving DecidableEq, Repr

/-- `_run_one_cycle` from the moment the job is claimed: mark `running`
with step `convert`, run the pipeline, then mark `success`, or `error`
with the stringified exception. -/
def runOneCycle (env : JobEnv) : JobRecord :=
  match processDrawingJob env with
  | .ok _ => ⟨"success", some "convert", none, true, true⟩
  | .error e => ⟨"error", some "convert", some e, true, true⟩

/-! ## Concrete scenario inputs -/

/-- The line list of the spec's worked scenario (claim C3). -/
def c3Lines : List String :=
  ["名称", "ベースプレート", "材質", "熱処理", "SS400", "表面処理",
   "黒染め", "図番", "2509-0017", "品名", "ベースプレート"]

/-- The scenario text: the lines joined by newlines. -/
def c3Input : String := joinSep "\n" c3Lines

/-- A cascade environment whose oracles are never expected to be
consulted (claim C2's witness). -/
def aiEnvNoCalls : AiEnv := ⟨none, none, fun _ => [], fun _ => []⟩

/-- A text whose positionally first page marker (`[ページ 3]`) is not the
first marker in the source's fixed check order (claim C10). -/
def c10Input : String := "[ページ 3]x[ページ 2]y"

/-- A job world whose Pinecone upsert raises (claim C1): page images
exist, OCR and extraction produce data, embedding succeeds, upsert fails. -/
def envC1 : JobEnv :=
  { drawing_id := "d1"
    drawing := ⟨"queued", .jnull, some "c1"⟩
    pdfFiles := []
    pageImages := [⟨some "p"⟩]
    pdfOutcome := .ok ()
    ocrOutcome := .ok ⟨"TEXT", [(1, "TEXT")]⟩
    aiOutcome := .ok [("part_name", .jstr "P")]
    vecEnv := ⟨true, true, some [1], .error "boom"⟩ }

/-- A job world with neither a PDF nor page images (claim C7's witness). -/
def envC7 : JobEnv :=
  { drawing_id := "d2"
    drawing := ⟨"queued", .jobj [("k", .jstr "v")], some "c2"⟩
    pdfFiles := []
    pageImages := []
    pdfOutcome := .ok ()
    ocrOutcome := .ok ⟨"", []⟩
    aiOutcome := .ok []
    vecEnv := ⟨true, true, some [1], .ok ()⟩ }

/-- Two OCR pages: one whose token persistence fails, one whose OCR call
raises (claim C4's witness). -/
def psC4 : List PageSpec := [⟨1, .ok "A", true⟩, ⟨2, .error "x", false⟩]

/-- An extraction whose `material` is empty and whose alias keys are
absent (claim C6's witness). -/
def aiC6 : AiDict := [("品名", .jstr "P"), ("material", .jstr ""), ("tags", .jarr [])]

/-- An existing drawing row with a `material` column value (claim C6's
witness). -/
def rowC6 : AiDict := [("material", .jstr "old")]

/-- A validation input with a valid date and a sibling field (claim C5's
witness). -/
def dC5 : AiDict := [("issue_date", .jstr "2024-12-31"), ("part_name", .jstr "x")]

/-! ## Helper lemmas -/

theorem strData_append (a b : String) : (a ++ b).data = a.data ++ b.data := by
  cases a; cases b; rfl

theorem dictGet_dictSet_self (d : AiDict) (k : String) (v : JVal) :
    dictGet (dictSet d k v) k = some v := by
  induction d with
  | nil => simp [dictSet, dictGet]
  | cons kv t ih =>
    by_cases h : kv.1 = k
    · obtain ⟨k', v'⟩ := kv
      simp_all [dictSet, dictGet]
    · obtain ⟨k', v'⟩ := kv
      simp_all [dictSet, dictGet]

theorem dictGet_dictSet_ne (d : AiDict) (k k' : String) (v : JVal) (h : k' ≠ k) :
    dictGet (dictSet d k v) k' = dictGet d k' := by
  have h' : k ≠ k' := Ne.symm h
  induction d with
  | nil => simp [dictSet, dictGet, h']
  | cons kv t ih =>
    obtain ⟨k0, v0⟩ := kv
    by_cases h0 : k0 = k
    · subst h0
      simp [dictSet, dictGet, h']
    · simp [dictSet, dictGet, h0, ih]

theorem dictGet_mem {d : AiDict} {k : String} {v : JVal}
    (h : dictGet d k = some v) : (k, v) ∈ d := by
  induction d with
  | nil => simp [dictGet] at h
  | cons kv t ih =>
    obtain ⟨k0, v0⟩ := kv
    by_cases h0 : k0 = k
    · subst h0
      simp [dictGet] at h
      simp [h]
    · simp [dictGet, h0] at h
      exact List.mem_cons_of_mem _ (ih h)

theorem dictGet_none_key_ne {d : AiDict} {k : String}
    (h : dictGet d k = none) : ∀ kv ∈ d, kv.1 ≠ k := by
  induction d with
  | nil => simp
  | cons kv0 t ih =>
    obtain ⟨k0, v0⟩ := kv0
    by_cases h0 : k0 = k
    · simp [dictGet, h0] at h
    · simp [dictGet, h0] at h
      intro kv hkv
      rcases List.mem_cons.mp hkv with hh | hh
      · simp [hh, h0]
      · exact ih h kv hh

theorem applyUpdate_not_key (row : AiDict) (upd : AiDict) (k : String)
    (h : ∀ kv ∈ upd, kv.1 ≠ k) :
    dictGet (applyUpdate row upd) k = dictGet row k := by
  induction upd generalizing row with
  | nil => rfl
  | cons kv t ih =>
    have hk : kv.1 ≠ k := h kv (List.mem_cons_self _ _)
    have ht : ∀ kv' ∈ t, kv'.1 ≠ k := fun kv' h' => h kv' (List.mem_cons_of_mem _ h')
    show dictGet (applyUpdate (dictSet row kv.1 kv.2) t) k = dictGet row k
    rw [ih (dictSet row kv.1 kv.2) ht, dictGet_dictSet_ne _ _ _ _ (fun hh => hk hh.symm)]

/-- Decomposition of a joined list at a member string, at the
character-list level. -/
theorem joinSep_data_of_mem (sep : String) {l : List String} {s : String} (h : s ∈ l) :
    ∃ pre post, (joinSep sep l).data = pre ++ s.data ++ post := by
  induction l with
  | nil => cases h
  | cons a t ih =>
    rcases List.mem_cons.mp h with rfl | ht
    · cases t with
      | nil => exact ⟨[], [], by simp [joinSep]⟩
      | cons b t' =>
        refine ⟨[], (sep ++ joinSep sep (b :: t')).data, ?_⟩
        show (s ++ sep ++ joinSep sep (b :: t')).data = _
        simp [strData_append]
    · cases t with
      | nil => cases ht
      | cons b t' =>
        obtain ⟨pre, post, hpp⟩ := ih ht
        refine ⟨(a ++ sep).data ++ pre, post, ?_⟩
        show (a ++ sep ++ joinSep sep (b :: t')).data = _
        simp [strData_append, hpp]

theorem setField_tags (r : ExtractedFields) (k : FieldKey) (v : String) :
    (setField r k v).tags = r.tags := by
  cases k <;> rfl

theorem assignValue_tags (r : ExtractedFields) (k : FieldKey) (v : Option String) :
    (assignValue r k v).tags = r.tags := by
  cases v with
  | none => rfl
  | some s =>
    simp only [assignValue]
    by_cases hk : k = FieldKey.issue_date
    · simp only [hk, if_pos]
      split
      · exact setField_tags r _ s
      · rfl
    · simp only [if_neg hk]
      exact setField_tags r k s

theorem ruleStep_tags (lines : List String) (r : ExtractedFields) (i : Nat) :
    (ruleStep lines r i).tags = r.tags := by
  unfold ruleStep
  cases lines.get? i with
  | none => rfl
  | some line =>
    dsimp only
    by_cases hl : isKnownLabel line
    · rw [if_neg (by simp [hl])]
      cases lookupLabelKey line with
      | none => rfl
      | some key => exact assignValue_tags r key _
    · rw [if_pos (by simp [hl])]

theorem foldl_ruleStep_tags (lines : List String) (l : List Nat) (r : ExtractedFields) :
    (l.foldl (ruleStep lines) r).tags = r.tags := by
  induction l generalizing r with
  | nil => rfl
  | cons i t ih => rw [List.foldl_cons, ih, ruleStep_tags]

theorem applyDrawingNoRegex_tags (t : String) (r : ExtractedFields) :
    (applyDrawingNoRegex t r).tags = r.tags := by
  unfold applyDrawingNoRegex
  cases rsearch DRAWING_NO_PAT t.data with
  | none => rfl
  | some m =>
    dsimp only
    split <;> rfl

theorem extractByRules_tags (s : String) : (extractByRules s).tags = [] := by
  unfold extractByRules
  split
  · rfl
  · dsimp only
    split
    · rfl
    · rw [applyDrawingNoRegex_tags, lineScanResult, foldl_ruleStep_tags]

theorem containsSub_eq_isSome_splitFirst (n : List Char) (h : List Char) :
    containsSub n h = (splitFirst n h).isSome := by
  induction h with
  | nil => cases n <;> rfl
  | cons c rest ih =>
    simp only [containsSub, splitFirst]
    by_cases hs : listStartsWith n (c :: rest)
    · simp [hs]
    · simp [hs, ih]

/-- Characterization of the separator loop of `_first_page_ocr_text`:
it splits at the first (in list order) separator contained in the text. -/
theorem firstPageAux_spec (seps : List String) (s : String) :
    (seps.find? (fun sep => containsSub sep.data s.data) = none → firstPageAux seps s = s) ∧
    (∀ sep, seps.find? (fun sep => containsSub sep.data s.data) = some sep →
      ∃ pre, splitFirst sep.data s.data = some pre ∧
        firstPageAux seps s = ⟨stripChars pre⟩) := by
  induction seps with
  | nil => exact ⟨fun _ => rfl, fun sep hsep => by simp at hsep⟩
  | cons a t ih =>
    by_cases ha : containsSub a.data s.data
    · have hsp : (splitFirst a.data s.data).isSome := by
        rw [← containsSub_eq_isSome_splitFirst]; exact ha
      obtain ⟨pre, hpre⟩ := Option.isSome_iff_exists.mp hsp
      have hfind : List.find? (fun sep => containsSub sep.data s.data) (a :: t) = some a :=
        List.find?_cons_of_pos t (by simpa using ha)
      constructor
      · intro hnone
        rw [hfind] at hnone
        cases hnone
      · intro sep hsep
        rw [hfind] at hsep
        cases hsep
        exact ⟨pre, hpre, by simp only [firstPageAux, hpre]⟩
    · have hn : splitFirst a.data s.data = none := by
        cases hopt : splitFirst a.data s.data with
        | none => rfl
        | some pre =>
          exact absurd (by rw [containsSub_eq_isSome_splitFirst, hopt]; rfl) ha
      have hfind : List.find? (fun sep => containsSub sep.data s.data) (a :: t) =
          List.find? (fun sep => containsSub sep.data s.data) t :=
        List.find?_cons_of_neg t (by simpa using ha)
      constructor
      · intro hnone
        rw [hfind] at hnone
        simp only [firstPageAux, hn]
        exact ih.1 hnone
      · intro sep hsep
        rw [hfind] at hsep
        simp only [firstPageAux, hn]
        exact ih.2 sep hsep

/-! ## Claim theorems -/

/-- C3: on the input whose trimmed non-empty lines are
`["名称","ベースプレート","材質","熱処理","SS400","表面処理","黒染め","図番","2509-0017","品名","ベースプレート"]`,
the rule engine returns part_name="ベースプレート", material="SS400",
surface_treatment="黒染め", drawing_no="2509-0017", and process_note=null
(the process_note candidate is rejected because it equals the resolved
material value). -/
theorem claim_C3_scenario :
    pyLines c3Input = c3Lines ∧
    extractByRules c3Input =
      { title := none, drawing_no := some "2509-0017",
        part_name := some "ベースプレート", material := some "SS400",
        surface_treatment := some "黒染め", process_note := none,
        issue_date := none, tags := [] } := by
  constructor
  · decide
  · decide

/-- C9: the rule engine is total — it is a Lean function, so it returns an
`ExtractedFields` record on every input — and an input that is empty or
whitespace-only yields the record with every scalar field null and `tags`
empty; moreover `tags` is the empty list on every input. -/
theorem claim_C9_totality (s : String) :
    (pyStrip s = "" →
      extractByRules s =
        { title := none, drawing_no := none, part_name := none, material := none,
          surface_treatment := none, process_note := none, issue_date := none,
          tags := [] }) ∧
    (extractByRules s).tags = [] := by
  refine ⟨fun h => ?_, extractByRules_tags s⟩
  unfold extractByRules
  rw [if_pos h]

/-- Witness for C9 at the whitespace-only input `" \n\t "`. -/
theorem claim_C9_witness :
    pyStrip " \n\t " = "" ∧
    extractByRules " \n\t " =
      { title := none, drawing_no := none, part_name := none, material := none,
        surface_treatment := none, process_note := none, issue_date := none,
        tags := [] } :=
  ⟨by decide, (claim_C9_totality " \n\t ").1 (by decide)⟩

/-- C10 fails as stated: on `"[ページ 3]x[ページ 2]y"` the positionally
first marker is `[ページ 3]`, so the claimed prefix is empty, but the
source tries the literals in fixed order and splits at `[ページ 2]`,
returning `"[ページ 3]x"`. -/
theorem claim_C10_counterexample :
    firstPageOcrText c10Input = "[ページ 3]x" ∧
    firstPageBySpecPosition c10Input = "" ∧
    firstPageOcrText c10Input ≠ firstPageBySpecPosition c10Input := by
  refine ⟨by decide, by decide, by decide⟩

/-- C10 (amended): the split marker is the first literal in the fixed
order `[ページ 2]`, `[ページ 3]`, `[ページ 4]`, `[ページ 5]` that occurs
anywhere in the text (not the earliest-positioned occurrence); the result
is the whitespace-stripped prefix before that marker's first occurrence,
and when none of the four markers occurs — including multi-page texts
whose markers use other numbers — the text is returned unchanged. -/
theorem claim_C10_amended (s : String) :
    (chosenPageSep s = none → firstPageOcrText s = s) ∧
    (∀ sep, chosenPageSep s = some sep →
      sep ∈ PAGE_SEPS ∧
      ∃ pre, splitFirst sep.data s.data = some pre ∧
        firstPageOcrText s = ⟨stripChars pre⟩) := by
  by_cases hs : s = ""
  · subst hs
    constructor
    · intro _; rfl
    · intro sep hsep
      rw [show chosenPageSep "" = none from by decide] at hsep
      cases hsep
  · have hfp : firstPageOcrText s = firstPageAux PAGE_SEPS s := by
      rw [firstPageOcrText, if_neg hs]
    obtain ⟨h1, h2⟩ := firstPageAux_spec PAGE_SEPS s
    constructor
    · intro hnone
      rw [hfp]
      exact h1 hnone
    · intro sep hsep
      refine ⟨List.mem_of_find?_eq_some hsep, ?_⟩
      obtain ⟨pre, hpre, heq⟩ := h2 sep hsep
      exact ⟨pre, hpre, by rw [hfp, heq]⟩

/-- Witness for the amended C10: `"[ページ 3]x[ページ 2]y"` splits at
`[ページ 2]` (first in check order), and a text with only a `[ページ 6]`
marker is returned unchanged. -/
theorem claim_C10_witness :
    (chosenPageSep c10Input = some "[ページ 2]" ∧
      ∃ pre, splitFirst ("[ページ 2]" : String).data c10Input.data = some pre ∧
        firstPageOcrText c10Input = ⟨stripChars pre⟩) ∧
    (chosenPageSep "[ページ 1]a[ページ 6]b" = none ∧
      firstPageOcrText "[ページ 1]a[ページ 6]b" = "[ページ 1]a[ページ 6]b") :=
  ⟨⟨by decide, ((claim_C10_amended c10Input).2 "[ページ 2]" (by decide)).2⟩,
   ⟨by decide, (claim_C10_amended "[ページ 1]a[ページ 6]b").1 (by decide)⟩⟩

/-- C2: whenever the rule engine's record on the first-page text has any
non-null/non-empty scalar field or non-empty tags, the cascade returns
exactly that record with only the issue-date validation applied, and
neither the multimodal nor the text-only generative call is made. -/
theorem claim_C2_rules_short_circuit (env : AiEnv) (t : String)
    (h : hasAnyExtractedValue (fieldsToDict (extractByRules (firstPageOcrText t))) = true) :
    runExtractionCascade env t =
      ⟨validateIssueDate (fieldsToDict (extractByRules (firstPageOcrText t))), false, false⟩ := by
  by_cases ht : t = ""
  · subst ht
    exact absurd h (by decide)
  · unfold runExtractionCascade
    rw [if_neg ht]
    dsimp only
    rw [if_pos h]

/-- Witness for C2 at the C3 scenario text: the rule record is non-empty
and the cascade returns it with zero generative calls. -/
theorem claim_C2_witness :
    hasAnyExtractedValue (fieldsToDict (extractByRules (firstPageOcrText c3Input))) = true ∧
    runExtractionCascade aiEnvNoCalls c3Input =
      ⟨validateIssueDate (fieldsToDict (extractByRules (firstPageOcrText c3Input))),
       false, false⟩ :=
  ⟨by decide, claim_C2_rules_short_circuit aiEnvNoCalls c3Input (by decide)⟩

/-- C5 fails as stated: the source validates with
`datetime.strptime(v, "%Y-%m-%d")`, which keeps `"2024-1-5"` (not in the
`YYYY-MM-DD` digit layout) and nulls `"2024-02-30"` (which is in that
layout but is not a calendar date). -/
theorem claim_C5_counterexample :
    validateIssueDate [("issue_date", .jstr "2024-1-5")] =
      [("issue_date", .jstr "2024-1-5")] ∧
    specMatchesIsoFormat "2024-1-5" = false ∧
    specMatchesIsoFormat "2024-02-30" = true ∧
    validateIssueDate [("issue_date", .jstr "2024-02-30")] =
      [("issue_date", .jnull)] :=
  ⟨rfl, by decide, by decide, rfl⟩

/-- C5 (amended): an extraction's `issue_date` survives validation only if
it parses under Python's `%Y-%m-%d` — a four-digit year at least 1, a
one-or-two-digit month 1–12, and a one-or-two-digit day valid for that
month and year — and a surviving value is the unchanged input value; any
other value is set to null without raising and without touching any other
field of the result. -/
theorem claim_C5_amended (d : AiDict) :
    (∀ s, dictGet (validateIssueDate d) "issue_date" = some (.jstr s) → s ≠ "" →
      strptimeYmdOk s = true ∧ dictGet d "issue_date" = some (.jstr s)) ∧
    (∀ k, k ≠ "issue_date" → dictGet (validateIssueDate d) k = dictGet d k) := by
  unfold validateIssueDate
  by_cases htr : jtruthy (pyGet d "issue_date")
  · rw [if_pos htr]
    cases hv : pyGet d "issue_date" with
    | jstr s0 =>
      dsimp only
      by_cases hok : strptimeYmdOk s0
      · rw [if_pos hok]
        refine ⟨fun s h _ => ⟨?_, h⟩, fun k _ => rfl⟩
        have hps : pyGet d "issue_date" = .jstr s := by
          unfold pyGet; rw [h]; rfl
        rw [hv] at hps
        cases hps
        exact hok
      · rw [if_neg hok]
        refine ⟨fun s h _ => ?_, fun k hk => dictGet_dictSet_ne d _ k _ hk⟩
        rw [dictGet_dictSet_self] at h
        cases h
    | jnull =>
      dsimp only
      refine ⟨fun s h _ => ?_, fun k hk => dictGet_dictSet_ne d _ k _ hk⟩
      rw [dictGet_dictSet_self] at h
      cases h
    | jbool b =>
      dsimp only
      refine ⟨fun s h _ => ?_, fun k hk => dictGet_dictSet_ne d _ k _ hk⟩
      rw [dictGet_dictSet_self] at h
      cases h
    | jnum n =>
      dsimp only
      refine ⟨fun s h _ => ?_, fun k hk => dictGet_dictSet_ne d _ k _ hk⟩
      rw [dictGet_dictSet_self] at h
      cases h
    | jarr l =>
      dsimp only
      refine ⟨fun s h _ => ?_, fun k hk => dictGet_dictSet_ne d _ k _ hk⟩
      rw [dictGet_dictSet_self] at h
      cases h
    | jobj l =>
      dsimp only
      refine ⟨fun s h _ => ?_, fun k hk => dictGet_dictSet_ne d _ k _ hk⟩
      rw [dictGet_dictSet_self] at h
      cases h
  · rw [if_neg htr]
    refine ⟨fun s h hs => ?_, fun k _ => rfl⟩
    have hps : pyGet d "issue_date" = .jstr s := by
      unfold pyGet; rw [h]; rfl
    rw [hps] at htr
    simp [jtruthy] at htr
    exact absurd htr hs

/-- Witness for the amended C5: `"2024-12-31"` is kept and the sibling
`part_name` field is untouched. -/
theorem claim_C5_witness :
    (strptimeYmdOk "2024-12-31" = true ∧
      dictGet dC5 "issue_date" = some (.jstr "2024-12-31")) ∧
    dictGet (validateIssueDate dC5) "part_name" = dictGet dC5 "part_name" :=
  ⟨(claim_C5_amended dC5).1 "2024-12-31" rfl (by decide),
   (claim_C5_amended dC5).2 "part_name" (by decide)⟩

/-- C7: with neither an original-PDF artifact nor a page_image artifact,
`process_drawing_job` returns right after the status update without
raising, no OCR/extract/vectorize stage runs, and the orchestrator still
marks the job `success`. -/
theorem claim_C7_no_artifacts (env : JobEnv)
    (h1 : env.pdfFiles = []) (h2 : env.pageImages = []) :
    processDrawingJob env =
      .ok { drawingStatus := "processing", doc := env.drawing.extracted_json,
            ocrRan := false, extractRan := false, vectorizeRan := false,
            vecError := none, upsertCall := none } ∧
    runOneCycle env = ⟨"success", some "convert", none, true, true⟩ := by
  have hp : processDrawingJob env =
      .ok { drawingStatus := "processing", doc := env.drawing.extracted_json,
            ocrRan := false, extractRan := false, vectorizeRan := false,
            vecError := none, upsertCall := none } := by
    unfold processDrawingJob
    rw [h1, h2]
    rfl
  refine ⟨hp, ?_⟩
  unfold runOneCycle
  rw [hp]

/-- Witness for C7 at a concrete artifact-free job world. -/
theorem claim_C7_witness :
    envC7.pdfFiles = [] ∧ envC7.pageImages = [] ∧
    runOneCycle envC7 = ⟨"success", some "convert", none, true, true⟩ :=
  ⟨rfl, rfl, (claim_C7_no_artifacts envC7 rfl rfl).2⟩

/-- C1 fails as stated: in `envC1` the Pinecone upsert raises `"boom"` and
the exception leaves the vectorizer, but `process_drawing_job` catches it
at the stage boundary, so the job ends `success` with no error message
(the OCR document is still persisted). -/
theorem claim_C1_counterexample :
    vectorizeStage envC1 = .error "boom" ∧
    runOneCycle envC1 = ⟨"success", some "convert", none, true, true⟩ ∧
    (runOneCycle envC1).status ≠ "error" ∧
    dictGet (jobjFields (docAfterAi envC1)) "ocr" =
      some (encodeOcrOutput ⟨"TEXT", [(1, "TEXT")]⟩) :=
  ⟨rfl, rfl, by decide, rfl⟩

/-- C1 (amended): when the vector index upsert raises, the exception
propagates out of the vectorize call but is caught at the stage boundary
in `process_drawing_job`; the job ends `success` with a null
error_message, and the drawing's `extracted_json` written by the earlier
OCR and extract stages remains persisted (not rolled back). -/
theorem claim_C1_amended (env : JobEnv) (e : String) (r : OcrOutput)
    (h1 : env.pdfFiles = []) (h2 : env.pageImages.isEmpty = false)
    (hocr : env.ocrOutcome = .ok r) (hr : r.ocr_text ≠ "")
    (hv : vectorizeStage env = .error e) :
    processDrawingJob env = .ok (stagesTrace env) ∧
    (stagesTrace env).vecError = some e ∧
    runOneCycle env = ⟨"success", some "convert", none, true, true⟩ ∧
    (stagesTrace env).doc = docAfterAi env ∧
    dictGet (jobjFields (stagesTrace env).doc) "ocr" = some (encodeOcrOutput r) := by
  have hp : processDrawingJob env = .ok (stagesTrace env) := by
    unfold processDrawingJob
    rw [h1, h2]
    rfl
  have hocr' : docAfterOcr env =
      .jobj (dictSet (jobjFields env.drawing.extracted_json) "ocr" (encodeOcrOutput r)) := by
    unfold docAfterOcr
    rw [hocr]
    dsimp only
    rw [if_pos (Or.inl hr)]
  have hdoc : dictGet (jobjFields (docAfterAi env)) "ocr" = some (encodeOcrOutput r) := by
    cases hai : env.aiOutcome with
    | error msg =>
      unfold docAfterAi
      rw [hai]
      dsimp only
      rw [hocr']
      exact dictGet_dictSet_self _ _ _
    | ok dd =>
      unfold docAfterAi
      rw [hai]
      dsimp only
      by_cases hdd : dd.isEmpty
      · rw [if_pos hdd, hocr']
        exact dictGet_dictSet_self _ _ _
      · rw [if_neg hdd, hocr']
        show dictGet (dictSet (dictSet _ "ocr" _) "ai" _) "ocr" = _
        rw [dictGet_dictSet_ne _ _ _ _ (by decide)]
        exact dictGet_dictSet_self _ _ _
  refine ⟨hp, ?_, ?_, rfl, hdoc⟩
  · show (match vectorizeStage env with
      | .error e => some e
      | .ok _ => none) = some e
    rw [hv]
  · unfold runOneCycle
    rw [hp]

/-- Witness for the amended C1 at the concrete failing-upsert world. -/
theorem claim_C1_witness :
    envC1.pdfFiles = [] ∧ envC1.pageImages.isEmpty = false ∧
    envC1.ocrOutcome = .ok ⟨"TEXT", [(1, "TEXT")]⟩ ∧
    vectorizeStage envC1 = .error "boom" ∧
    ((stagesTrace envC1).vecError = some "boom" ∧
      runOneCycle envC1 = ⟨"success", some "convert", none, true, true⟩) :=
  ⟨rfl, rfl, rfl, rfl,
    ⟨(claim_C1_amended envC1 "boom" ⟨"TEXT", [(1, "TEXT")]⟩ rfl rfl rfl
        (by decide) rfl).2.1,
     (claim_C1_amended envC1 "boom" ⟨"TEXT", [(1, "TEXT")]⟩ rfl rfl rfl
        (by decide) rfl).2.2.1⟩⟩

theorem mem_scalarFoldl {n : AiDict} {cols : List String} {acc : AiDict}
    {kv : String × JVal}
    (h : kv ∈ cols.foldl
      (fun acc k => if jtruthy (pyGet n k) then acc ++ [(k, pyGet n k)] else acc) acc) :
    kv ∈ acc ∨ (jtruthy kv.2 = true ∧ kv.2 = pyGet n kv.1 ∧ kv.1 ∈ cols) := by
  induction cols generalizing acc with
  | nil => exact Or.inl h
  | cons c t ih =>
    rw [List.foldl_cons] at h
    rcases ih h with hacc | hP
    · by_cases hc : jtruthy (pyGet n c)
      · rw [if_pos hc] at hacc
        rcases List.mem_append.mp hacc with h1 | h2
        · exact Or.inl h1
        · rcases List.mem_singleton.mp h2 with rfl
          exact Or.inr ⟨hc, rfl, List.mem_cons_self _ _⟩
      · rw [if_neg hc] at hacc
        exact Or.inl hacc
    · exact Or.inr ⟨hP.1, hP.2.1, List.mem_cons_of_mem _ hP.2.2⟩

theorem mem_updateFieldsFor {ai : AiDict} {kv : String × JVal}
    (h : kv ∈ updateFieldsFor ai) :
    jtruthy kv.2 = true ∧ kv.2 = pyGet (normalizeAiResult ai) kv.1 ∧
    (kv.1 ∈ SCALAR_COLUMNS ∨ (kv.1 = "tags" ∧ isJArr kv.2 = true)) := by
  rcases List.mem_append.mp h with hs | ht
  · rcases mem_scalarFoldl hs with hemp | hP
    · cases hemp
    · exact ⟨hP.1, hP.2.1, Or.inl hP.2.2⟩
  · unfold tagsUpdateFields at ht
    by_cases hg : jtruthy (pyGet (normalizeAiResult ai) "tags") &&
        isJArr (pyGet (normalizeAiResult ai) "tags")
    · rw [if_pos hg] at ht
      rcases List.mem_singleton.mp ht with rfl
      have hg' := Bool.and_eq_true_iff.mp hg
      exact ⟨hg'.1, rfl, Or.inr ⟨rfl, hg'.2⟩⟩
    · rw [if_neg hg] at ht
      cases ht

/-- C6: every drawing column field enters the update payload only with a
truthy (non-null, non-empty) normalized value — for `tags`, only a
non-empty list — and a field absent from the payload leaves the existing
column value untouched by the update. -/
theorem claim_C6_column_update (ai row : AiDict) (k : String) (hk : k ∈ COLUMN_KEYS) :
    (∀ v, dictGet (updateFieldsFor ai) k = some v →
      jtruthy v = true ∧ v ≠ .jnull ∧ v ≠ .jstr "" ∧
      v = pyGet (normalizeAiResult ai) k ∧
      (k = "tags" → ∃ l, v = .jarr l ∧ l ≠ [])) ∧
    (dictGet (updateFieldsFor ai) k = none →
      dictGet (applyUpdate row (updateFieldsFor ai)) k = dictGet row k) := by
  constructor
  · intro v hv
    obtain ⟨htr, hval, hcase⟩ := mem_updateFieldsFor (dictGet_mem hv)
    dsimp only at htr hval hcase
    refine ⟨htr, ?_, ?_, hval, ?_⟩
    · intro he; rw [he] at htr; simp [jtruthy] at htr
    · intro he; rw [he] at htr; simp [jtruthy] at htr
    · intro hkt
      rcases hcase with hsc | ⟨_, harr⟩
      · rw [hkt] at hsc
        exact absurd hsc (by decide)
      · cases v with
        | jarr l =>
          refine ⟨l, rfl, ?_⟩
          intro hl
          rw [hl] at htr
          simp [jtruthy] at htr
        | jnull => simp [isJArr] at harr
        | jbool b => simp [isJArr] at harr
        | jnum n => simp [isJArr] at harr
        | jstr s => simp [isJArr] at harr
        | jobj o => simp [isJArr] at harr
  · intro hnone
    exact applyUpdate_not_key row _ k (dictGet_none_key_ne hnone)

/-- Witness for C6: an empty `material` value does not enter the payload
and the existing `material` column survives the update. -/
theorem claim_C6_witness :
    "material" ∈ COLUMN_KEYS ∧
    dictGet (updateFieldsFor aiC6) "material" = none ∧
    dictGet (applyUpdate rowC6 (updateFieldsFor aiC6)) "material" =
      dictGet rowC6 "material" :=
  ⟨by decide, rfl, (claim_C6_column_update aiC6 rowC6 "material" (by decide)).2 rfl⟩

theorem ocrLoop_dbFails_irrelevant (ps : List PageSpec) :
    (ocrLoop (ps.map (fun q => { q with dbFails := false }))).1 = (ocrLoop ps).1 ∧
    (ocrLoop (ps.map (fun q => { q with dbFails := false }))).2.1 = (ocrLoop ps).2.1 := by
  induction ps with
  | nil => exact ⟨rfl, rfl⟩
  | cons p rest ih =>
    simp only [List.map_cons, ocrLoop]
    cases p.ocr with
    | ok text =>
      dsimp only
      rw [ih.1, ih.2]
      exact ⟨rfl, rfl⟩
    | error e =>
      dsimp only
      rw [ih.1, ih.2]
      exact ⟨rfl, rfl⟩

theorem mem_ocrLoop_pages_ok {ps : List PageSpec} {p : PageSpec} (hp : p ∈ ps)
    {text : String} (ht : p.ocr = .ok text) :
    (p.page_no, text) ∈ (ocrLoop ps).1 := by
  induction ps with
  | nil => cases hp
  | cons q rest ih =>
    rcases List.mem_cons.mp hp with rfl | hmem
    · simp only [ocrLoop, ht]
      exact List.mem_cons_self _ _
    · simp only [ocrLoop]
      cases q.ocr with
      | ok t0 => exact List.mem_cons_of_mem _ (ih hmem)
      | error e0 => exact List.mem_cons_of_mem _ (ih hmem)

theorem mem_ocrLoop_pages_error {ps : List PageSpec} {p : PageSpec} (hp : p ∈ ps)
    {e : String} (he : p.ocr = .error e) :
    (p.page_no, "") ∈ (ocrLoop ps).1 := by
  induction ps with
  | nil => cases hp
  | cons q rest ih =>
    rcases List.mem_cons.mp hp with rfl | hmem
    · simp only [ocrLoop, he]
      exact List.mem_cons_self _ _
    · simp only [ocrLoop]
      cases q.ocr with
      | ok t0 => exact List.mem_cons_of_mem _ (ih hmem)
      | error e0 => exact List.mem_cons_of_mem _ (ih hmem)

theorem mem_ocrLoop_texts {ps : List PageSpec} {p : PageSpec} (hp : p ∈ ps)
    {text : String} (ht : p.ocr = .ok text) (hne : text ≠ "") :
    pageHeader p.page_no text ∈ (ocrLoop ps).2.1 := by
  induction ps with
  | nil => cases hp
  | cons q rest ih =>
    rcases List.mem_cons.mp hp with rfl | hmem
    · simp only [ocrLoop, ht]
      rw [if_neg hne]
      exact List.mem_cons_self _ _
    · simp only [ocrLoop]
      cases q.ocr with
      | ok t0 =>
        dsimp only
        by_cases h0 : t0 = ""
        · rw [if_pos h0]
          exact ih hmem
        · rw [if_neg h0]
          exact List.mem_cons_of_mem _ (ih hmem)
      | error e0 => exact ih hmem

/-- C4: the per-page OCR loop appends each page's entry and its
`[ページ N]`-prefixed text before any database write is attempted, so the
returned result is the same whether or not any page's token/dimension
persistence fails; a page whose OCR step succeeds with non-empty text
contributes its entry and its prefixed text to the concatenated
`ocr_text`, and a page whose OCR step raises is recorded as an entry with
empty text instead of propagating. -/
theorem claim_C4_page_isolation (ps : List PageSpec) (p : PageSpec) (hp : p ∈ ps) :
    processOcrForDrawing ps =
      processOcrForDrawing (ps.map (fun q => { q with dbFails := false })) ∧
    (∀ text, p.ocr = .ok text → text ≠ "" →
      (p.page_no, text) ∈ (processOcrForDrawing ps).pages ∧
      ∃ pre post, (processOcrForDrawing ps).ocr_text.data =
        pre ++ (pageHeader p.page_no text).data ++ post) ∧
    (∀ e, p.ocr = .error e → (p.page_no, "") ∈ (processOcrForDrawing ps).pages) := by
  have hne : ps.isEmpty = false := by
    cases ps with
    | nil => cases hp
    | cons a t => rfl
  have hne' : (ps.map (fun q => { q with dbFails := false })).isEmpty = false := by
    cases ps with
    | nil => cases hp
    | cons a t => rfl
  have hproc : processOcrForDrawing ps =
      ⟨joinSep ("\n" ++ "\n") (ocrLoop ps).2.1, (ocrLoop ps).1⟩ := by
    unfold processOcrForDrawing
    rw [hne]
    rfl
  have hproc' : processOcrForDrawing (ps.map (fun q => { q with dbFails := false })) =
      ⟨joinSep ("\n" ++ "\n") (ocrLoop (ps.map (fun q => { q with dbFails := false }))).2.1,
       (ocrLoop (ps.map (fun q => { q with dbFails := false }))).1⟩ := by
    unfold processOcrForDrawing
    rw [hne']
    rfl
  refine ⟨?_, ?_, ?_⟩
  · have hclear := ocrLoop_dbFails_irrelevant ps
    rw [hproc, hproc', hclear.1, hclear.2]
  · intro text ht htne
    rw [hproc]
    refine ⟨mem_ocrLoop_pages_ok hp ht, ?_⟩
    exact joinSep_data_of_mem _ (mem_ocrLoop_texts hp ht htne)
  · intro e he
    rw [hproc]
    exact mem_ocrLoop_pages_error hp he

/-- Witness for C4: a page with failing token persistence and a page
whose OCR raises. -/
theorem claim_C4_witness :
    (⟨1, .ok "A", true⟩ : PageSpec) ∈ psC4 ∧
    ((1, "A") ∈ (processOcrForDrawing psC4).pages ∧
      (2, "") ∈ (processOcrForDrawing psC4).pages ∧
      processOcrForDrawing psC4 =
        processOcrForDrawing (psC4.map (fun q => { q with dbFails := false }))) :=
  ⟨List.mem_cons_self _ _,
   ⟨((claim_C4_page_isolation psC4 ⟨1, .ok "A", true⟩ (List.mem_cons_self _ _)).2.1
       "A" rfl (by decide)).1,
    (claim_C4_page_isolation psC4 ⟨2, .error "x", false⟩
       (List.mem_cons_of_mem _ (List.mem_cons_self _ _))).2.2 "x" rfl,
    (claim_C4_page_isolation psC4 ⟨1, .ok "A", true⟩ (List.mem_cons_self _ _)).1⟩⟩

theorem takeDigits_append {n : Nat} {s d r : List Char} (x : List Char)
    (h : takeDigits n s = some (d, r)) :
    takeDigits n (s ++ x) = some (d, r ++ x) := by
  induction n generalizing s d r with
  | zero =>
    simp only [takeDigits] at h
    injection h with h1
    injection h1 with h2 h3
    subst h2
    subst h3
    rfl
  | succ n ih =>
    cases s with
    | nil => cases h
    | cons c cs =>
      simp only [takeDigits] at h
      by_cases hd : pyIsDigit c
      · rw [if_pos hd] at h
        obtain ⟨⟨d', r'⟩, hd', heq⟩ := Option.map_eq_some'.mp h
        injection heq with h1 h2
        dsimp only at h1 h2
        subst h1
        subst h2
        simp only [List.cons_append, takeDigits]
        rw [if_pos hd]
        have e : cs.append x = cs ++ x := rfl
        rw [e, ih hd']
        rfl
      · rw [if_neg hd] at h
        cases h

theorem takeDigits_sound {n : Nat} {s d r : List Char}
    (h : takeDigits n s = some (d, r)) :
    s = d ++ r ∧ takeDigits n d = some (d, []) := by
  induction n generalizing s d r with
  | zero =>
    simp only [takeDigits] at h
    injection h with h1
    injection h1 with h2 h3
    subst h2
    subst h3
    exact ⟨rfl, rfl⟩
  | succ n ih =>
    cases s with
    | nil => cases h
    | cons c cs =>
      simp only [takeDigits] at h
      by_cases hd : pyIsDigit c
      · rw [if_pos hd] at h
        obtain ⟨⟨d', r'⟩, hd', heq⟩ := Option.map_eq_some'.mp h
        injection heq with h1 h2
        dsimp only at h1 h2
        subst h1
        subst h2
        obtain ⟨hs, hdd⟩ := ih hd'
        constructor
        · rw [hs]; rfl
        · simp only [takeDigits]
          rw [if_pos hd, hdd]
          rfl
      · rw [if_neg hd] at h
        cases h

theorem matchToksAt_sound {p : List RTok} {s m r : List Char}
    (h : matchToksAt p s = some (m, r)) :
    s = m ++ r ∧ matchToksAt p m = some (m, []) := by
  induction p generalizing s m r with
  | nil =>
    simp only [matchToksAt] at h
    injection h with h1
    injection h1 with h2 h3
    subst h2
    subst h3
    exact ⟨rfl, rfl⟩
  | cons tok ps ih =>
    cases tok with
    | digits n =>
      simp only [matchToksAt] at h
      cases htd : takeDigits n s with
      | none => rw [htd] at h; cases h
      | some dr =>
        obtain ⟨d, r0⟩ := dr
        rw [htd] at h
        obtain ⟨⟨m1, r1⟩, hm1, heq⟩ := Option.map_eq_some'.mp h
        injection heq with h1 h2
        dsimp only at h1 h2
        subst h1
        subst h2
        obtain ⟨hs0, hdd⟩ := takeDigits_sound htd
        obtain ⟨hr0, hmm⟩ := ih hm1
        constructor
        · rw [hs0, hr0, List.append_assoc]
        · simp only [matchToksAt]
          rw [takeDigits_append m1 hdd]
          simp only [List.nil_append]
          rw [hmm]
          rfl
    | lit c =>
      cases s with
      | nil => cases h
      | cons c0 cs =>
        simp only [matchToksAt] at h
        by_cases hc : c0 = c
        · rw [if_pos hc] at h
          obtain ⟨⟨m1, r1⟩, hm1, heq⟩ := Option.map_eq_some'.mp h
          injection heq with h1 h2
          dsimp only at h1 h2
          subst h1
          subst h2
          obtain ⟨hcs, hmm⟩ := ih hm1
          constructor
          · rw [hcs, hc]; rfl
          · simp only [matchToksAt, if_true, hmm]
            rfl
        · rw [if_neg hc] at h
          cases h

theorem rsearch_sound {p : List RTok} {s m : List Char}
    (h : rsearch p s = some m) :
    matchToksAt p m = some (m, []) := by
  induction s with
  | nil =>
    simp only [rsearch] at h
    obtain ⟨⟨m1, r1⟩, hm1, heq⟩ := Option.map_eq_some'.mp h
    subst heq
    exact (matchToksAt_sound hm1).2
  | cons c cs ih =>
    simp only [rsearch] at h
    cases hm0 : matchToksAt p (c :: cs) with
    | some mr =>
      obtain ⟨m0, r0⟩ := mr
      rw [hm0] at h
      injection h with h1
      subst h1
      exact (matchToksAt_sound hm0).2
    | none =>
      rw [hm0] at h
      exact ih h

/-- C8: after the line scan, the whole text is searched for the
drawing-number pattern `\d{4}-\d{4}`; when no match exists the line-scan
record stands, when a match exists it replaces a line-scan `drawing_no`
that is absent or not itself a prefix-match of the pattern, a line-scan
value already matching the pattern is kept, and in every match case the
final `drawing_no` matches the pattern. -/
theorem claim_C8_drawing_no_regex (t : String)
    (h1 : pyStrip t ≠ "") (h2 : (pyLines t).isEmpty = false) :
    (rsearch DRAWING_NO_PAT t.data = none →
      extractByRules t = lineScanResult (pyLines t)) ∧
    (∀ m, rsearch DRAWING_NO_PAT t.data = some m →
      (∀ cur, (lineScanResult (pyLines t)).drawing_no = some cur →
        rmatch DRAWING_NO_PAT cur.data = true →
        extractByRules t = lineScanResult (pyLines t)) ∧
      ((∀ cur, (lineScanResult (pyLines t)).drawing_no = some cur →
          rmatch DRAWING_NO_PAT cur.data = false) →
        extractByRules t =
          { lineScanResult (pyLines t) with drawing_no := some ⟨m⟩ }) ∧
      (∃ v, (extractByRules t).drawing_no = some v ∧
        rmatch DRAWING_NO_PAT v.data = true)) := by
  have hrw : extractByRules t = applyDrawingNoRegex t (lineScanResult (pyLines t)) := by
    unfold extractByRules
    rw [if_neg h1]
    dsimp only
    rw [if_neg (by simp [h2])]
  constructor
  · intro hn
    rw [hrw]
    unfold applyDrawingNoRegex
    rw [hn]
  · intro m hm
    have hmm : rmatch DRAWING_NO_PAT m = true := by
      unfold rmatch
      rw [rsearch_sound hm]
      rfl
    rcases hcur : (lineScanResult (pyLines t)).drawing_no with _ | cur
    · have hres : extractByRules t =
          { lineScanResult (pyLines t) with drawing_no := some ⟨m⟩ } := by
        rw [hrw]
        unfold applyDrawingNoRegex
        rw [hm]
        dsimp only
        rw [hcur]
        rfl
      refine ⟨?_, fun _ => hres, ⟨⟨m⟩, by rw [hres], hmm⟩⟩
      intro cur hc _
      exact Option.noConfusion hc
    · by_cases hmt : rmatch DRAWING_NO_PAT cur.data
      · have hcne : cur ≠ "" := by
          intro he
          subst he
          exact absurd hmt (by decide)
        have hres : extractByRules t = lineScanResult (pyLines t) := by
          rw [hrw]
          unfold applyDrawingNoRegex
          rw [hm]
          dsimp only
          rw [hcur]
          dsimp only
          rw [if_pos (by simp [hcne, hmt])]
        refine ⟨fun _ _ _ => hres, ?_, ⟨cur, by rw [hres]; exact hcur, hmt⟩⟩
        intro hall
        exact absurd (hall cur rfl) (by simp [hmt])
      · have hmf : rmatch DRAWING_NO_PAT cur.data = false := by
          revert hmt
          cases rmatch DRAWING_NO_PAT cur.data <;> simp
        have hres : extractByRules t =
            { lineScanResult (pyLines t) with drawing_no := some ⟨m⟩ } := by
          rw [hrw]
          unfold applyDrawingNoRegex
          rw [hm]
          dsimp only
          rw [hcur]
          dsimp only
          rw [if_neg (by simp [hmf])]
        refine ⟨?_, fun _ => hres, ⟨⟨m⟩, by rw [hres], hmm⟩⟩
        intro cur' hc' hmt'
        injection hc' with e
        subst e
        exact absurd hmt' hmt


/-- Witness for C8 at the C3 scenario text, whose line-scan `drawing_no`
already matches the pattern and is kept. -/
theorem claim_C8_witness :
    pyStrip c3Input ≠ "" ∧ (pyLines c3Input).isEmpty = false ∧
    rsearch DRAWING_NO_PAT c3Input.data = some ("2509-0017" : String).data ∧
    (lineScanResult (pyLines c3Input)).drawing_no = some "2509-0017" ∧
    extractByRules c3Input = lineScanResult (pyLines c3Input) :=
  ⟨by decide, by decide, by decide, by decide,
   ((claim_C8_drawing_no_regex c3Input (by decide) (by decide)).2
       ("2509-0017" : String).data (by decide)).1 "2509-0017" (by decide) (by decide)⟩

end ZumenConnect
